import Mathlib

/-!
# Verification of the ISA-Tab conversion core (`isatools/isatab.py`)

A shallow embedding of the load/dump conversion core of `isatab.py`:
records (Python dicts of table cells) become association lists, fallible
dict/list accesses become `Except` values, and the entity builders are
translated function by function.  Classes of `isatools.model.v1` (absent
from the sources, only constructed and read field-wise by `isatab.py`) are
modelled from the spec as plain structures.
-/

set_option autoImplicit false
set_option linter.unusedVariables false

namespace Isatab

/-- Errors a build step can raise: a Python `KeyError` on a missing dict
key, an `IndexError` on an out-of-range list index, and the `IOError`
`load` raises when the parser returns `None`. -/
inductive BuildError where
  | keyError (key : String)
  | indexError
  | ioError
deriving DecidableEq, Repr

/-- A raw metadata record: a Python dict from table-header strings to cell
strings, embedded as an association list (first binding wins). -/
def Record := List (String × String)
deriving DecidableEq, Repr

/-- Lookup in an association list, as Python `d[k]`/`d.get(k)` on a dict:
the first binding of the key, if any. -/
def alookup {α : Type} (m : List (String × α)) (k : String) : Option α :=
  match m with
  | [] => none
  | (k₀, v) :: rest => if k₀ = k then some v else alookup rest k

/-- Python `record[key]`: the value, or a `KeyError` naming the key. -/
def recGet (r : Record) (k : String) : Except BuildError String :=
  match alookup r k with
  | some v => .ok v
  | none => .error (.keyError k)

/-- Python `xs[i]`: the element, or an `IndexError`. -/
def pyIndex {α : Type} (xs : List α) (i : Nat) : Except BuildError α :=
  match xs[i]? with
  | some v => .ok v
  | none => .error .indexError

/-- Python `str.split(sep)` for a one-character separator, on the
character list: always at least one token, empty tokens kept. -/
def pySplitAux (c : Char) : List Char → List (List Char)
  | [] => [[]]
  | x :: xs =>
    if x = c then [] :: pySplitAux c xs
    else
      match pySplitAux c xs with
      | [] => [[x]]
      | y :: ys => (x :: y) :: ys

/-- Python `s.split(c)` on strings. -/
def pySplit (s : String) (c : Char) : List String :=
  (pySplitAux c s.data).map String.mk

/-- Python `c.join(xs)` on character lists. -/
def pyJoinAux (c : Char) : List (List Char) → List Char
  | [] => []
  | [x] => x
  | x :: y :: xs => x ++ c :: pyJoinAux c (y :: xs)

/-- Python `c.join(xs)` on strings. -/
def pyJoin (c : Char) (xs : List String) : String :=
  String.mk (pyJoinAux c (xs.map String.data))

/-- Python `s.endswith(suffix)`. -/
def pyEndsWith (s suffix : String) : Bool :=
  suffix.data.isSuffixOf s.data

/-- Python `s.startswith(prefix)`. -/
def pyStartsWith (s p : String) : Bool :=
  p.data.isPrefixOf s.data

/-- Python `s.replace(old, new)` for the one case the source uses:
removing every occurrence of a single character (`replace("]", "")`). -/
def pyRemoveChar (s : String) (c : Char) : String :=
  String.mk (s.data.filter (fun x => x ≠ c))

/-- Whether an `Except` is a success. -/
def exIsOk {α : Type} : Except BuildError α → Bool
  | .ok _ => true
  | .error _ => false

/-- Modelled from the spec: `model.v1.OntologyAnnotation` (the class file is
not among the sources) — a controlled-vocabulary term with `name`,
`term_source` and `term_accession`, exactly as the load builders fill it
(all three components are the raw cell strings). -/
structure OntologyAnnot where
  name : String
  term_source : String
  term_accession : String
deriving DecidableEq, Repr

/-- Modelled from the spec: `model.v1.OntologySourceReference` with `name`,
`file`, `version`, `description`. -/
structure OntologySourceReference where
  description : String
  file : String
  name : String
  version : String
deriving DecidableEq, Repr

/-- Modelled from the spec: `model.v1.Publication` with `pubmed_id`, `doi`,
`author_list`, `title` and a `status` ontology annotation. -/
structure Publication where
  pubmed_id : String
  doi : String
  author_list : String
  title : String
  status : OntologyAnnot
deriving DecidableEq, Repr

/-- Modelled from the spec: `model.v1.Contact` with the name/contact fields
and an ordered `roles` list of ontology annotations. -/
structure Contact where
  last_name : String
  first_name : String
  mid_initials : String
  email : String
  phone : String
  fax : String
  address : String
  affiliation : String
  roles : List OntologyAnnot
deriving DecidableEq, Repr

/-- Modelled from the spec: `model.v1.ProtocolParameter`, a named parameter
whose `name` is an ontology annotation. -/
structure ProtocolParameter where
  name : OntologyAnnot
deriving DecidableEq, Repr

/-- Modelled from the spec: `model.v1.Protocol`. -/
structure Protocol where
  name : String
  protocol_type : OntologyAnnot
  description : String
  uri : String
  version : String
  parameters : List ProtocolParameter
deriving DecidableEq, Repr

/-- Modelled from the spec: `model.v1.Data`, a data node with its raw
node-type tag. -/
structure Data where
  name : String
  type_ : String
deriving DecidableEq, Repr

/-- One characteristic entry of a material node: the dict
`{"characteristic": OntologyAnnot(...)}` built by
`_createCharacteristicList`. -/
structure CharacteristicEntry where
  characteristic : OntologyAnnot
deriving DecidableEq, Repr

/-- A sample-dictionary value: the dict with keys `name`, `factors`
(always the empty list in this core) and `characteristics` built by
`_createSampleDictionary`. -/
structure SampleEntry where
  name : String
  factors : List String
  characteristics : List CharacteristicEntry
deriving DecidableEq, Repr

/-- A source-dictionary value: the dict with keys `name` and
`characteristics` built by `_createSourcesDictionary`. -/
structure SourceEntry where
  name : String
  characteristics : List CharacteristicEntry
deriving DecidableEq, Repr

/-- An element of a process's `inputs` list: in the source this is the
raw dict taken from either the source dictionary or the sample dictionary;
the heterogeneous Python list is embedded as a sum. -/
inductive MaterialRef where
  | source (e : SourceEntry)
  | sample (e : SampleEntry)
deriving DecidableEq, Repr

/-- A process record as `_createProcessSequence` emits it: the dict with
keys `executesProtocol` (always the empty dict), `parameters` (always the
empty list), `inputs` and `outputs`. -/
structure ProcessEntry where
  executesProtocol : Unit
  parameters : List String
  inputs : List MaterialRef
  outputs : List SampleEntry
deriving DecidableEq, Repr

/-- Modelled from the spec: `model.v1.Assay`. -/
structure Assay where
  file_name : String
  measurement_type : OntologyAnnot
  technology_type : OntologyAnnot
  technology_platform : String
  process_sequence : List ProcessEntry
deriving DecidableEq, Repr

/-- Modelled from the spec: `model.v1.Study`. -/
structure Study where
  identifier : String
  title : String
  description : String
  submission_date : String
  public_release_date : String
  design_descriptors : List OntologyAnnot
  publications : List Publication
  contacts : List Contact
  protocols : List Protocol
  sources : List SourceEntry
  samples : List SampleEntry
  process_sequence : List ProcessEntry
  assays : List Assay
deriving DecidableEq, Repr

/-- Modelled from the spec: `model.v1.Investigation`, the root of the
graph. -/
structure Investigation where
  identifier : String
  title : String
  description : String
  submission_date : String
  public_release_date : String
  ontology_source_references : List OntologySourceReference
  publications : List Publication
  contacts : List Contact
  studies : List Study
deriving DecidableEq, Repr

/-- Modelled from the spec: `Investigation()`, the no-argument default
constructor — "a freshly default-constructed empty Investigation": empty
strings and empty lists throughout. -/
def Investigation.empty : Investigation :=
  ⟨"", "", "", "", "", [], [], [], []⟩

/-- Modelled from the spec: a raw material/data node of the parse tree, as
`isatab_parser` (outside the sources) hands it over — a type tag, a
metadata mapping of column header to value, and a name. -/
structure RawNode where
  name : String
  ntype : String
  metadata : Record
deriving DecidableEq, Repr

/-- Modelled from the spec: a raw process node — input/output name lists
and the owning assay's metadata when present (`study_assay` may be absent,
in which case every metadata lookup on it degrades). -/
structure RawProcessNode where
  study_assay_metadata : Option Record
  inputs : List String
  outputs : List String
deriving DecidableEq, Repr

/-- Modelled from the spec: a raw assay record — its metadata mapping and
its own node graph and process nodes. -/
structure RawAssay where
  metadata : Record
  nodes : List (String × RawNode)
  process_nodes : List (String × RawProcessNode)
deriving DecidableEq, Repr

/-- Modelled from the spec: a raw study record of the parse tree. -/
structure RawStudy where
  metadata : Record
  design_descriptors : List Record
  publications : List Record
  contacts : List Record
  protocols : List Record
  nodes : List (String × RawNode)
  process_nodes : List (String × RawProcessNode)
  assays : List RawAssay
deriving DecidableEq, Repr

/-- Modelled from the spec: the raw parse tree `isatab_parser.parse`
returns — investigation metadata, ontology source reference records,
investigation publication/contact records, and the study records. -/
structure IsaTab where
  metadata : Record
  ontology_refs : List Record
  publications : List Record
  contacts : List Record
  studies : List RawStudy
deriving DecidableEq, Repr

/-- The accumulate-in-order loop shared by every list-building helper of
`load`: build one entity per record, in record order, aborting on the
first failure. -/
def listBuild {α β : Type} (f : α → Except BuildError β) : List α → Except BuildError (List β)
  | [] => .ok []
  | x :: rest => do
      let y ← f x
      let tl ← listBuild f rest
      .ok (y :: tl)

/-- Loop body of `_createOntologySourceReferences` (isatab.py:34-40): one
`OntologySourceReference` from one raw record, field gets in source
(keyword) order. -/
def _createOntologySourceReferenceItem (ontology_ref : Record) : Except BuildError OntologySourceReference := do
  let description ← recGet ontology_ref "Term Source Description"
  let file ← recGet ontology_ref "Term Source File"
  let name ← recGet ontology_ref "Term Source Name"
  let version ← recGet ontology_ref "Term Source Version"
  .ok ⟨description, file, name, version⟩

/-- `_createOntologySourceReferences` (isatab.py:31-41). -/
def _createOntologySourceReferences (ontology_refs : List Record) : Except BuildError (List OntologySourceReference) :=
  listBuild _createOntologySourceReferenceItem ontology_refs

/-- `_createOntologyAnnotationForInvOrStudy` (isatab.py:56-62): the single
(non-split) ontology-annotated field, three gets on prefixed keys. -/
def _createOntologyAnnotForInvOrStudy (object_ : Record) (inv_or_study type_ : String) : Except BuildError OntologyAnnot := do
  let name ← recGet object_ (inv_or_study ++ type_)
  let term_source ← recGet object_ (inv_or_study ++ type_ ++ " Term Source REF")
  let term_accession ← recGet object_ (inv_or_study ++ type_ ++ " Term Accession Number")
  .ok ⟨name, term_source, term_accession⟩

/-- The body of the `for pub in publications` loop of `_createPublications`
(isatab.py:45-53): one `Publication` from one raw record. -/
def _createPublicationItem (pub : Record) (inv_or_study : String) : Except BuildError Publication := do
  let pubmed_id ← recGet pub (inv_or_study ++ " PubMed ID")
  let doi ← recGet pub (inv_or_study ++ " Publication DOI")
  let author_list ← recGet pub (inv_or_study ++ " Publication Author List")
  let title ← recGet pub (inv_or_study ++ " Publication Title")
  let status ← _createOntologyAnnotForInvOrStudy pub inv_or_study " Publication Status"
  .ok ⟨pubmed_id, doi, author_list, title, status⟩

/-- `_createPublications` (isatab.py:43-54).  The source's first statement
rebinds the `publications` parameter to a fresh empty list
(`publications = []`), so the following loop iterates the empty list and
the input records are never read. -/
def _createPublications (publications : List Record) (inv_or_study : String) : Except BuildError (List Publication) :=
  let publications : List Record := []
  listBuild (fun pub => _createPublicationItem pub inv_or_study) publications

/-- Loop body of `_createContacts` (isatab.py:66-78): one `Contact` from
one raw record, `roles` left empty. -/
def _createContactItem (contact : Record) (inv_or_study : String) : Except BuildError Contact := do
  let last_name ← recGet contact (inv_or_study ++ " Person Last Name")
  let first_name ← recGet contact (inv_or_study ++ " Person First Name")
  let mid_initials ← recGet contact (inv_or_study ++ " Person Mid Initials")
  let email ← recGet contact (inv_or_study ++ " Person Email")
  let phone ← recGet contact (inv_or_study ++ " Person Phone")
  let fax ← recGet contact (inv_or_study ++ " Person Fax")
  let address ← recGet contact (inv_or_study ++ " Person Address")
  let affiliation ← recGet contact (inv_or_study ++ " Person Affiliation")
  .ok ⟨last_name, first_name, mid_initials, email, phone, fax, address, affiliation, []⟩

/-- `_createContacts` (isatab.py:64-79). -/
def _createContacts (contacts : List Record) (inv_or_study : String) : Except BuildError (List Contact) :=
  listBuild (fun contact => _createContactItem contact inv_or_study) contacts

/-- `OntologyAnnotation(name=...)` with only the name keyword: the other
two components default.  Modelled from the spec: the characteristic keeps
only the bracketed label, source and accession are not captured. -/
def OntologyAnnot.ofName (n : String) : OntologyAnnot :=
  ⟨n, "", ""⟩

/-- `header.replace("]", "").split("[")[-1]` (isatab.py:109): strip every
`]` and take the last `[`-separated token. -/
def bracketLabel (header : String) : String :=
  (pySplit (pyRemoveChar header ']') '[').getLastD ""

/-- `_createCharacteristicList` (isatab.py:105-115): scan the node's
column headers for the `Characteristics` prefix and keep the bracketed
label.  The `node_name` parameter is unused, as in the source. -/
def _createCharacteristicList (node_name : String) (node : RawNode) : List CharacteristicEntry :=
  go (node.metadata.map Prod.fst)
where
  /-- The `for header in node.metadata` loop. -/
  go : List String → List CharacteristicEntry
  | [] => []
  | header :: rest =>
      if pyStartsWith header "Characteristics"
      then ⟨OntologyAnnot.ofName (bracketLabel header)⟩ :: go rest
      else go rest

/-- `_createSampleDictionary` (isatab.py:82-92): the nodes whose type tag
is exactly `"Sample Name"`, keyed by node index, in node order. -/
def _createSampleDictionary : List (String × RawNode) → List (String × SampleEntry)
  | [] => []
  | (node_index, node) :: rest =>
      if node.ntype = "Sample Name"
      then (node_index, ⟨node_index, [], _createCharacteristicList node_index node⟩) :: _createSampleDictionary rest
      else _createSampleDictionary rest

/-- `_createSourcesDictionary` (isatab.py:94-103): the nodes whose type
tag is exactly `"Source Name"`. -/
def _createSourcesDictionary : List (String × RawNode) → List (String × SourceEntry)
  | [] => []
  | (node_name, node) :: rest =>
      if node.ntype = "Source Name"
      then (node_name, ⟨node_name, _createCharacteristicList node_name node⟩) :: _createSourcesDictionary rest
      else _createSourcesDictionary rest

/-- `_createDataFiles` (isatab.py:168-177): the nodes whose type tag ends
with `"Data File"`, each mapped to a `Data` entity. -/
def _createDataFiles : List (String × RawNode) → List (String × Data)
  | [] => []
  | (node_index, node) :: rest =>
      if pyEndsWith node.ntype "Data File"
      then (node_index, ⟨node.name, node.ntype⟩) :: _createDataFiles rest
      else _createDataFiles rest

/-- `_createOntologyAnnotationListForInvOrStudy` (isatab.py:117-126): one
annotation per record; the loop body is textually the single-field
builder's body. -/
def _createOntologyAnnotListForInvOrStudy (array : List Record) (inv_or_study type_ : String) : Except BuildError (List OntologyAnnot) :=
  listBuild (fun object_ => _createOntologyAnnotForInvOrStudy object_ inv_or_study type_) array

/-- The `for i in range(0, len(name_array))` loop of
`_createOntologyAnnotationsFromStringList` (isatab.py:158-164): walk the
name tokens structurally while indexing the source/accession token lists
at the running index `i` (either of which can raise `IndexError`). -/
def _createOntologyAnnotsLoop : List String → List String → List String → Nat → Except BuildError (List OntologyAnnot)
  | [], _, _, _ => .ok []
  | n :: ns, srcs, accs, i => do
      let s ← pyIndex srcs i
      let a ← pyIndex accs i
      let rest ← _createOntologyAnnotsLoop ns srcs accs (i + 1)
      .ok (⟨n, s, a⟩ :: rest)

/-- `_createOntologyAnnotationsFromStringList` (isatab.py:153-165): fetch
the three parallel fields, split each on `;`, then build one annotation
per name token. -/
def _createOntologyAnnotsFromStringList (object_ : Record) (inv_or_study type_ : String) : Except BuildError (List OntologyAnnot) := do
  let nameStr ← recGet object_ (inv_or_study ++ type_)
  let srcStr ← recGet object_ (inv_or_study ++ type_ ++ " Term Source REF")
  let accStr ← recGet object_ (inv_or_study ++ type_ ++ " Term Accession Number")
  _createOntologyAnnotsLoop (pySplit nameStr ';') (pySplit srcStr ';') (pySplit accStr ';') 0

/-- `_createProtocolParameterList` (isatab.py:142-151): wrap each
annotation of the split `Study Protocol Parameters Name` triple in a
`ProtocolParameter`. -/
def _createProtocolParameterList (protocol : Record) : Except BuildError (List ProtocolParameter) := do
  let parameters_annots ← _createOntologyAnnotsFromStringList protocol "Study" " Protocol Parameters Name"
  .ok (parameters_annots.map fun a => ⟨a⟩)

/-- Loop body of `_createProtocols` (isatab.py:130-139). -/
def _createProtocolItem (prot : Record) : Except BuildError Protocol := do
  let name ← recGet prot "Study Protocol Name"
  let protocol_type ← _createOntologyAnnotForInvOrStudy prot "Study" " Protocol Type"
  let description ← recGet prot "Study Protocol Description"
  let uri ← recGet prot "Study Protocol URI"
  let version ← recGet prot "Study Protocol Version"
  let parameters ← _createProtocolParameterList prot
  .ok ⟨name, protocol_type, description, uri, version, parameters⟩

/-- `_createProtocols` (isatab.py:128-140). -/
def _createProtocols (protocols : List Record) : Except BuildError (List Protocol) :=
  listBuild _createProtocolItem protocols

/-- The per-field `try/except` of `_createProcessSequence`
(isatab.py:182-195): a failed assay-metadata lookup (or an absent
`study_assay`) degrades to the empty string, for that field only. -/
def assayMetaOrEmpty (m : Option Record) (k : String) : String :=
  match m with
  | some r =>
      match alookup r k with
      | some v => v
      | none => ""
  | none => ""

/-- `_createExecuteStudyProtocol` (isatab.py:206-214): always the empty
record — protocol linkage is unresolved in this core. -/
def _createExecuteStudyProtocol (process_node_name : String) (process_node : RawProcessNode) : Unit :=
  ()

/-- `_createInputList` (isatab.py:216-229): for each input name, first the
source-dictionary value if present, then the sample-dictionary value if
present; a `KeyError` is swallowed per lookup. -/
def _createInputList : List String → List (String × SourceEntry) → List (String × SampleEntry) → List MaterialRef
  | [], _, _ => []
  | argument :: rest, source_dict, sample_dict =>
      (match alookup source_dict argument with
        | some v => [MaterialRef.source v]
        | none => []) ++
      (match alookup sample_dict argument with
        | some v => [MaterialRef.sample v]
        | none => []) ++
      _createInputList rest source_dict sample_dict

/-- `_createOutputList` (isatab.py:231-239): for each output name, the
sample-dictionary value if present; a `KeyError` is swallowed. -/
def _createOutputList : List String → List (String × SampleEntry) → List SampleEntry
  | [], _ => []
  | argument :: rest, sample_dict =>
      (match alookup sample_dict argument with
        | some v => [v]
        | none => []) ++
      _createOutputList rest sample_dict

/-- `_createProcessSequence` (isatab.py:179-204): one process record per
raw process node, in node order.  The three degraded metadata lookups are
computed but, as in the source, never stored in the emitted record; the
`data_dict` parameter is passed but unused, as in the source. -/
def _createProcessSequence : List (String × RawProcessNode) → List (String × SourceEntry) → List (String × SampleEntry) → List (String × Data) → List ProcessEntry
  | [], _, _, _ => []
  | (process_node_name, pn) :: rest, source_dict, sample_dict, data_dict =>
      let measurement_type := assayMetaOrEmpty pn.study_assay_metadata "Study Assay Measurement Type"
      let platform := assayMetaOrEmpty pn.study_assay_metadata "Study Assay Technology Platform"
      let technology := assayMetaOrEmpty pn.study_assay_metadata "Study Assay Technology Type"
      { executesProtocol := _createExecuteStudyProtocol process_node_name pn,
        parameters := [],
        inputs := _createInputList pn.inputs source_dict sample_dict,
        outputs := _createOutputList pn.outputs sample_dict } ::
      _createProcessSequence rest source_dict sample_dict data_dict

/-- Loop body of `_createStudyAssaysList` (isatab.py:243-260): per-assay
dictionaries over the assay's own node graph, then the `Assay` with its
metadata gets in keyword order. -/
def _createAssayItem (assay : RawAssay) : Except BuildError Assay := do
  let source_dict := _createSourcesDictionary assay.nodes
  let sample_dict := _createSampleDictionary assay.nodes
  let data_dict := _createDataFiles assay.nodes
  let file_name ← recGet assay.metadata "Study Assay File Name"
  let mt_name ← recGet assay.metadata "Study Assay Measurement Type"
  let mt_source ← recGet assay.metadata "Study Assay Measurement Type Term Source REF"
  let mt_accession ← recGet assay.metadata "Study Assay Measurement Type Term Accession Number"
  let tt_name ← recGet assay.metadata "Study Assay Technology Type"
  let tt_source ← recGet assay.metadata "Study Assay Technology Type Term Source REF"
  let tt_accession ← recGet assay.metadata "Study Assay Technology Type Term Accession Number"
  let technology_platform ← recGet assay.metadata "Study Assay Technology Platform"
  .ok ⟨file_name, ⟨mt_name, mt_source, mt_accession⟩, ⟨tt_name, tt_source, tt_accession⟩,
       technology_platform,
       _createProcessSequence assay.process_nodes source_dict sample_dict data_dict⟩

/-- `_createStudyAssaysList` (isatab.py:241-261). -/
def _createStudyAssaysList (assays : List RawAssay) : Except BuildError (List Assay) :=
  listBuild _createAssayItem assays

/-- Loop body of `_createStudies` (isatab.py:265-285): dictionaries over
the study's node graph, then the `Study` with its builders run in keyword
order (identifier first, assays last). -/
def _createStudyItem (study : RawStudy) : Except BuildError Study := do
  let source_dict := _createSourcesDictionary study.nodes
  let sample_dict := _createSampleDictionary study.nodes
  let data_dict := _createDataFiles study.nodes
  let identifier ← recGet study.metadata "Study Identifier"
  let title ← recGet study.metadata "Study Title"
  let description ← recGet study.metadata "Study Description"
  let submission_date ← recGet study.metadata "Study Submission Date"
  let public_release_date ← recGet study.metadata "Study Public Release Date"
  let design_descriptors ← _createOntologyAnnotListForInvOrStudy study.design_descriptors "Study" " Design Type"
  let publications ← _createPublications study.publications "Study"
  let contacts ← _createContacts study.contacts "Study"
  let protocols ← _createProtocols study.protocols
  let assays ← _createStudyAssaysList study.assays
  .ok ⟨identifier, title, description, submission_date, public_release_date,
       design_descriptors, publications, contacts, protocols,
       source_dict.map Prod.snd, sample_dict.map Prod.snd,
       _createProcessSequence study.process_nodes source_dict sample_dict data_dict,
       assays⟩

/-- `_createStudies` (isatab.py:263-286). -/
def _createStudies (studies : List RawStudy) : Except BuildError (List Study) :=
  listBuild _createStudyItem studies

/-- `load` after parsing (isatab.py:288-306): `None` from the parser
raises `IOError`; an empty investigation-metadata mapping leaves
`investigation = None` (a successful absent result); otherwise the
`Investigation` is built with its keyword builders run in order. -/
def load (isa_tab : Option IsaTab) : Except BuildError (Option Investigation) :=
  match isa_tab with
  | none => .error .ioError
  | some t =>
      if t.metadata = ([] : Record) then .ok none
      else do
        let identifier ← recGet t.metadata "Investigation Identifier"
        let title ← recGet t.metadata "Investigation Title"
        let description ← recGet t.metadata "Investigation Description"
        let submission_date ← recGet t.metadata "Investigation Submission Date"
        let public_release_date ← recGet t.metadata "Investigation Public Release Date"
        let ontology_source_references ← _createOntologySourceReferences t.ontology_refs
        let publications ← _createPublications t.publications "Investigation"
        let contacts ← _createContacts t.contacts "Investigation"
        let studies ← _createStudies t.studies
        .ok (some ⟨identifier, title, description, submission_date, public_release_date,
                   ontology_source_references, publications, contacts, studies⟩)

/-- The three role accumulators of the contacts loop of `dump`
(isatab.py:398-404): `roles`, `roles_accession_numbers` and
`roles_source_refs`, each extended with the component plus a trailing
`;` per role.  (The source reads `role.term_source.name`; the term source
is embedded by its name string.) -/
def contactRolesStrings (roles : List OntologyAnnot) : String × String × String :=
  roles.foldl
    (fun acc role =>
      (acc.1 ++ role.name ++ ";",
       acc.2.1 ++ role.term_accession ++ ";",
       acc.2.2 ++ role.term_source ++ ";"))
    ("", "", "")

/-- The row `dump` assigns for one contact (isatab.py:405-417), in the
column order of the `INVESTIGATION CONTACTS` frame. -/
def contactRow (c : Contact) : List String :=
  [c.last_name, c.first_name, c.mid_initials, c.email, c.phone, c.fax,
   c.address, c.affiliation,
   (contactRolesStrings c.roles).1,
   (contactRolesStrings c.roles).2.1,
   (contactRolesStrings c.roles).2.2]

/-- `df.loc[i] = row`: replace the row at label `i` if present, else
append it. -/
def dfSetLoc : List (Nat × List String) → Nat → List String → List (Nat × List String)
  | [], i, r => [(i, r)]
  | (j, r₀) :: rest, i, r =>
      if j = i then (i, r) :: rest else (j, r₀) :: dfSetLoc rest i r

/-- The `INVESTIGATION CONTACTS` data rows `dump` accumulates
(isatab.py:396-417): `i` starts at `0` and — unlike in the publications
loop — is never incremented, so every contact is written to row `0`.
After the transpose these rows are exactly the data columns of the
serialized section. -/
def investigationContactsTable (contacts : List Contact) : List (Nat × List String) :=
  (contacts.foldl
    (fun (st : List (Nat × List String) × Nat) c =>
      (dfSetLoc st.1 st.2 (contactRow c), st.2))
    ([], 0)).1

/-- The field names of the `INVESTIGATION CONTACTS` frame
(isatab.py:383-394). -/
def investigationContactsHeaders : List String :=
  ["Investigation Person Last Name", "Investigation Person First Name",
   "Investigation Person Mid Initials", "Investigation Person Email",
   "Investigation Person Phone", "Investigation Person Fax",
   "Investigation Person Address", "Investigation Person Affiliation",
   "Investigation Person Roles",
   "Investigation Person Roles Term Accession Number",
   "Investigation Person Roles Term Source REF"]

/-- The `index_label` passed to `to_csv` for the `INVESTIGATION CONTACTS`
section (isatab.py:421): the top-left cell of the written table. -/
def investigationContactsIndexLabel : String :=
  "Investigation PubMed ID"

/-- `loads` (isatab.py:428-430): the argument is ignored and a fresh
default `Investigation()` is returned. -/
def loads (s : String) : Investigation :=
  Investigation.empty

/-- A concrete raw publication record carrying every `Investigation`-scope
publication field. -/
def pubRecordEx : Record :=
  [("Investigation PubMed ID", "12345"),
   ("Investigation Publication DOI", "10.1000/x"),
   ("Investigation Publication Author List", "Doe J; Roe R"),
   ("Investigation Publication Title", "A title"),
   ("Investigation Publication Status", "published"),
   ("Investigation Publication Status Term Source REF", "OBI"),
   ("Investigation Publication Status Term Accession Number", "0001")]

/-- A raw study with no metadata at all (in particular no
`Study Identifier`). -/
def studyNoMeta : RawStudy :=
  ⟨[], [], [], [], [], [], [], []⟩

/-- A raw tree whose investigation metadata is empty and whose only study
lacks every required field. -/
def emptyMetaBadStudyTree : IsaTab :=
  ⟨[], [], [], [], [studyNoMeta]⟩

/-- A raw tree with non-empty investigation metadata that nevertheless
lacks `Investigation Identifier`. -/
def nonemptyMetaTree : IsaTab :=
  ⟨[("foo", "bar")], [], [], [], []⟩

/-- A raw tree with minimal investigation metadata whose only study lacks
`Study Identifier`. -/
def badStudyTree : IsaTab :=
  ⟨[("Investigation Identifier", "I1")], [], [], [], [studyNoMeta]⟩

/-- The association-list record holding the three parallel annotation
fields under exactly the keys `_createOntologyAnnotationsFromStringList`
reads: `<prefix><label>`, `<prefix><label> Term Source REF`,
`<prefix><label> Term Accession Number`. -/
def mkAnnRecord (inv_or_study type_ : String) (names srcs accs : String) : Record :=
  [(inv_or_study ++ type_, names),
   (inv_or_study ++ type_ ++ " Term Source REF", srcs),
   (inv_or_study ++ type_ ++ " Term Accession Number", accs)]

/-- Position-wise zip of the three token lists into annotations, stopping
at the shortest list: the shape of a successful annotation-loop result. -/
def zipAnn : List String → List String → List String → List OntologyAnnot
  | n :: ns, s :: ss, a :: accs => ⟨n, s, a⟩ :: zipAnn ns ss accs
  | _, _, _ => []

/-- The key set of a node dictionary. -/
def dictKeys {α : Type} (m : List (String × α)) : List String :=
  m.map Prod.fst

/-- A concrete node graph with one source node, one sample node, one data
node and one node matching no recognized type tag. -/
def nodesEx : List (String × RawNode) :=
  [("src1", ⟨"src1", "Source Name", []⟩),
   ("smp1", ⟨"smp1", "Sample Name", []⟩),
   ("d1", ⟨"f.raw", "Raw Spectral Data File", []⟩),
   ("p1", ⟨"p1", "Protocol REF", []⟩)]

/-- Inversion of a successful `Except` bind: both stages succeeded. -/
theorem exBind_ok {α β : Type} {x : Except BuildError α} {f : α → Except BuildError β} {b : β}
    (h : x >>= f = Except.ok b) : ∃ a, x = Except.ok a ∧ f a = Except.ok b := by
  cases x with
  | error e => exact Except.noConfusion h
  | ok a => exact ⟨a, rfl, h⟩

/-- Inversion of a successful `listBuild`: every record built. -/
theorem listBuild_ok {α β : Type} {f : α → Except BuildError β} {xs : List α} {l : List β}
    (h : listBuild f xs = .ok l) : ∀ x ∈ xs, ∃ y, f x = .ok y := by
  induction xs generalizing l with
  | nil => intro x hx; cases hx
  | cons a rest ih =>
      intro x hx
      rw [listBuild] at h
      obtain ⟨y, hy, h⟩ := exBind_ok h
      obtain ⟨tl, htl, -⟩ := exBind_ok h
      cases hx with
      | head => exact ⟨y, hy⟩
      | tail _ hmem => exact ih htl x hmem

end Isatab

namespace Isatab

/-- C10: `loads` ignores its input entirely — it returns the
default-constructed empty `Investigation` for every string, so any two
calls agree. -/
theorem loads_ignores_input :
    (∀ s₁ s₂ : String, loads s₁ = loads s₂) ∧ ∀ s : String, loads s = Investigation.empty :=
  ⟨fun _ _ => rfl, fun _ => rfl⟩

/-- C8: the outputs list is exactly the sample-dictionary values of the
output names that are sample-dictionary keys, in output-name order; a name
missing from the sample dictionary (wherever else it may appear)
contributes nothing, and the builder is total — no error is possible. -/
theorem outputList_exactly_sample_hits :
    ∀ (arguments : List String) (sample_dict : List (String × SampleEntry)),
      _createOutputList arguments sample_dict
        = arguments.filterMap (fun a => alookup sample_dict a) := by
  intro arguments sample_dict
  induction arguments with
  | nil => rfl
  | cons a rest ih =>
      simp only [_createOutputList, List.filterMap_cons]
      cases h : alookup sample_dict a <;> simp [h, ih]

/-- `_createInputList` distributes over appending of the name list. -/
theorem inputList_append (xs ys : List String)
    (source_dict : List (String × SourceEntry)) (sample_dict : List (String × SampleEntry)) :
    _createInputList (xs ++ ys) source_dict sample_dict
      = _createInputList xs source_dict sample_dict ++ _createInputList ys source_dict sample_dict := by
  induction xs with
  | nil => rfl
  | cons a rest ih =>
      simp only [List.cons_append, _createInputList, List.append_eq, ih, List.append_assoc]

/-- C7: an input name that is a key of both the source dictionary and the
sample dictionary contributes exactly two consecutive entries to the
process inputs — the source-dictionary value followed by the
sample-dictionary value — with no deduplication. -/
theorem inputList_fanout (pre post : List String) (a : String)
    (source_dict : List (String × SourceEntry)) (sample_dict : List (String × SampleEntry))
    (sv : SourceEntry) (se : SampleEntry)
    (hsrc : alookup source_dict a = some sv) (hsmp : alookup sample_dict a = some se) :
    _createInputList (pre ++ a :: post) source_dict sample_dict
      = _createInputList pre source_dict sample_dict
        ++ [MaterialRef.source sv, MaterialRef.sample se]
        ++ _createInputList post source_dict sample_dict := by
  rw [inputList_append]
  simp only [_createInputList, hsrc, hsmp]
  simp

/-- Witness for C7 at a one-element input list and singleton
dictionaries. -/
theorem inputList_fanout_witness :
    alookup [("s1", (⟨"s1", []⟩ : SourceEntry))] "s1" = some ⟨"s1", []⟩
    ∧ alookup [("s1", (⟨"s1", [], []⟩ : SampleEntry))] "s1" = some ⟨"s1", [], []⟩
    ∧ _createInputList ["s1"] [("s1", ⟨"s1", []⟩)] [("s1", ⟨"s1", [], []⟩)]
        = [MaterialRef.source ⟨"s1", []⟩, MaterialRef.sample ⟨"s1", [], []⟩] :=
  ⟨by decide, by decide, by
    simpa using inputList_fanout [] [] "s1" [("s1", ⟨"s1", []⟩)] [("s1", ⟨"s1", [], []⟩)]
      ⟨"s1", []⟩ ⟨"s1", [], []⟩ (by decide) (by decide)⟩

/-- C1: the publications builder discards its input — its first statement
rebinds the record-list parameter to `[]`, so a non-empty input list still
yields the empty publications list, even though the per-record loop body
(embedded as `_createPublicationItem`) would have produced one fully
populated `Publication` for the record. -/
theorem createPublications_drops_input :
    _createPublications [pubRecordEx] "Investigation" = .ok []
    ∧ _createPublicationItem pubRecordEx "Investigation"
        = .ok ⟨"12345", "10.1000/x", "Doe J; Roe R", "A title", ⟨"published", "OBI", "0001"⟩⟩ := by
  exact ⟨rfl, rfl⟩

/-- C6: with two contacts, the accumulated `INVESTIGATION CONTACTS` data
rows (the data columns after the transpose) collapse to a single row
holding only the second contact — the row counter is never incremented —
and the index label written for the section is the copy-pasted
`"Investigation PubMed ID"`, not the first field name
`"Investigation Person Last Name"`. -/
theorem dump_contacts_overwrite :
    investigationContactsTable
        [⟨"A", "Ann", "Q", "a@x", "1", "2", "Addr", "Lab", []⟩,
         ⟨"B", "Bob", "R", "b@x", "3", "4", "Addr2", "Lab2", []⟩]
      = [(0, contactRow ⟨"B", "Bob", "R", "b@x", "3", "4", "Addr2", "Lab2", []⟩)]
    ∧ (investigationContactsTable
        [⟨"A", "Ann", "Q", "a@x", "1", "2", "Addr", "Lab", []⟩,
         ⟨"B", "Bob", "R", "b@x", "3", "4", "Addr2", "Lab2", []⟩]).length = 1
    ∧ investigationContactsIndexLabel ≠ "Investigation Person Last Name"
    ∧ investigationContactsHeaders.head? = some "Investigation Person Last Name" := by
  refine ⟨by decide, by decide, by decide, by decide⟩

/-- C5: `load` on a successfully parsed tree returns the absent result
(`none`, without error) exactly when the investigation metadata mapping is
empty; with non-empty metadata it never returns an absent success — it
either builds an `Investigation` or fails. -/
theorem load_absent_iff_empty_metadata (t : IsaTab) :
    load (some t) = .ok none ↔ t.metadata = [] := by
  constructor
  · intro hok
    by_contra hne
    rw [load, if_neg hne] at hok
    obtain ⟨a₁, e₁, hok⟩ := exBind_ok hok
    obtain ⟨a₂, e₂, hok⟩ := exBind_ok hok
    obtain ⟨a₃, e₃, hok⟩ := exBind_ok hok
    obtain ⟨a₄, e₄, hok⟩ := exBind_ok hok
    obtain ⟨a₅, e₅, hok⟩ := exBind_ok hok
    obtain ⟨a₆, e₆, hok⟩ := exBind_ok hok
    obtain ⟨a₇, e₇, hok⟩ := exBind_ok hok
    obtain ⟨a₈, e₈, hok⟩ := exBind_ok hok
    obtain ⟨a₉, e₉, hok⟩ := exBind_ok hok
    simp at hok
  · intro he
    rw [load, if_pos he]

/-- Counterexample for C5 as stated: non-empty metadata does not imply an
`Investigation` is constructed — a tree whose metadata carries only an
unrelated key makes `load` fail with a `KeyError`, constructing
nothing. -/
theorem load_nonempty_meta_errors :
    load (some nonemptyMetaTree) = .error (.keyError "Investigation Identifier")
    ∧ nonemptyMetaTree.metadata ≠ [] :=
  ⟨rfl, by decide⟩

/-- A successful `_createStudyItem` implies the study had its
`Study Identifier` and its assay list built. -/
theorem studyItem_ok_gets {s : RawStudy} {st : Study} (h : _createStudyItem s = .ok st) :
    (∃ v, recGet s.metadata "Study Identifier" = .ok v)
    ∧ ∃ l, _createStudyAssaysList s.assays = .ok l := by
  rw [_createStudyItem] at h
  obtain ⟨v, hv, h⟩ := exBind_ok h
  obtain ⟨a₂, h₂, h⟩ := exBind_ok h
  obtain ⟨a₃, h₃, h⟩ := exBind_ok h
  obtain ⟨a₄, h₄, h⟩ := exBind_ok h
  obtain ⟨a₅, h₅, h⟩ := exBind_ok h
  obtain ⟨a₆, h₆, h⟩ := exBind_ok h
  obtain ⟨a₇, h₇, h⟩ := exBind_ok h
  obtain ⟨a₈, h₈, h⟩ := exBind_ok h
  obtain ⟨a₉, h₉, h⟩ := exBind_ok h
  obtain ⟨l, hl, h⟩ := exBind_ok h
  exact ⟨⟨v, hv⟩, ⟨l, hl⟩⟩

/-- A successful `_createAssayItem` implies the assay had its
`Study Assay File Name`. -/
theorem assayItem_ok_get {a : RawAssay} {A : Assay} (h : _createAssayItem a = .ok A) :
    ∃ v, recGet a.metadata "Study Assay File Name" = .ok v := by
  rw [_createAssayItem] at h
  obtain ⟨v, hv, h⟩ := exBind_ok h
  exact ⟨v, hv⟩

/-- A successful `load` implies the studies were all built. -/
theorem load_ok_studies {t : IsaTab} {v : Option Investigation}
    (hne : t.metadata ≠ []) (h : load (some t) = .ok v) :
    (∃ w, recGet t.metadata "Investigation Identifier" = .ok w)
    ∧ ∃ l, _createStudies t.studies = .ok l := by
  rw [load, if_neg hne] at h
  obtain ⟨w, hw, h⟩ := exBind_ok h
  obtain ⟨b₂, g₂, h⟩ := exBind_ok h
  obtain ⟨b₃, g₃, h⟩ := exBind_ok h
  obtain ⟨b₄, g₄, h⟩ := exBind_ok h
  obtain ⟨b₅, g₅, h⟩ := exBind_ok h
  obtain ⟨b₆, g₆, h⟩ := exBind_ok h
  obtain ⟨b₇, g₇, h⟩ := exBind_ok h
  obtain ⟨b₈, g₈, h⟩ := exBind_ok h
  obtain ⟨l, hl, h⟩ := exBind_ok h
  exact ⟨⟨w, hw⟩, ⟨l, hl⟩⟩

/-- C4 (amended): on a tree with non-empty investigation metadata, a
required field missing from the investigation metadata, from any study, or
from any assay makes the whole conversion fail — `load` never returns a
(partial or full) `Investigation`. -/
theorem load_atomic_failure (t : IsaTab) (hmeta : t.metadata ≠ [])
    (hbad : alookup t.metadata "Investigation Identifier" = none
          ∨ (∃ s ∈ t.studies, alookup s.metadata "Study Identifier" = none)
          ∨ (∃ s ∈ t.studies, ∃ a ∈ s.assays,
               alookup a.metadata "Study Assay File Name" = none)) :
    exIsOk (load (some t)) = false := by
  cases hres : load (some t) with
  | error e => rfl
  | ok v =>
      exfalso
      obtain ⟨⟨w, hw⟩, ⟨l, hl⟩⟩ := load_ok_studies hmeta hres
      rcases hbad with hmiss | ⟨s, hs, hmiss⟩ | ⟨s, hs, a, ha, hmiss⟩
      · rw [recGet, hmiss] at hw
        exact Except.noConfusion hw
      · obtain ⟨st, hst⟩ := listBuild_ok hl s hs
        obtain ⟨⟨u, hu⟩, -⟩ := studyItem_ok_gets hst
        rw [recGet, hmiss] at hu
        exact Except.noConfusion hu
      · obtain ⟨st, hst⟩ := listBuild_ok hl s hs
        obtain ⟨-, ⟨la, hla⟩⟩ := studyItem_ok_gets hst
        obtain ⟨A, hA⟩ := listBuild_ok hla a ha
        obtain ⟨u, hu⟩ := assayItem_ok_get hA
        rw [recGet, hmiss] at hu
        exact Except.noConfusion hu

/-- Witness for C4 at a concrete tree whose single study lacks
`Study Identifier`. -/
theorem load_atomic_failure_witness :
    badStudyTree.metadata ≠ []
    ∧ (∃ s ∈ badStudyTree.studies, alookup s.metadata "Study Identifier" = none)
    ∧ exIsOk (load (some badStudyTree)) = false :=
  ⟨by decide, by decide,
   load_atomic_failure badStudyTree (by decide) (Or.inr (Or.inl (by decide)))⟩

/-- Counterexample for C4 as stated: a raw tree whose only study lacks
`Study Identifier` but whose investigation metadata is empty makes `load`
return a successful absent result, not an error. -/
theorem load_missing_field_no_error :
    alookup studyNoMeta.metadata "Study Identifier" = none
    ∧ emptyMetaBadStudyTree.studies = [studyNoMeta]
    ∧ load (some emptyMetaBadStudyTree) = .ok none :=
  ⟨by decide, rfl, rfl⟩

/-- Python split always yields at least one token. -/
theorem pySplitAux_ne_nil (c : Char) (l : List Char) : pySplitAux c l ≠ [] := by
  induction l with
  | nil => simp [pySplitAux]
  | cons x xs ih =>
      simp only [pySplitAux]
      by_cases h : x = c
      · simp [h]
      · rw [if_neg h]
        cases hs : pySplitAux c xs with
        | nil => simp
        | cons y ys => simp

/-- Splitting a separator-free token list yields that single token. -/
theorem pySplitAux_of_not_mem {c : Char} {l : List Char} (h : c ∉ l) :
    pySplitAux c l = [l] := by
  induction l with
  | nil => rfl
  | cons x xs ih =>
      rw [List.mem_cons, not_or] at h
      simp only [pySplitAux]
      rw [if_neg (fun he => h.1 he.symm), ih h.2]

/-- Splitting past a leading separator-free token peels it off. -/
theorem pySplitAux_sep_append {c : Char} {l : List Char} (rest : List Char) (h : c ∉ l) :
    pySplitAux c (l ++ c :: rest) = l :: pySplitAux c rest := by
  induction l with
  | nil => simp [pySplitAux]
  | cons x xs ih =>
      rw [List.mem_cons, not_or] at h
      simp only [List.cons_append, pySplitAux, List.append_eq]
      rw [if_neg (fun he => h.1 he.symm), ih h.2]

/-- Character-list round trip: splitting a join of a non-empty list of
separator-free tokens recovers the tokens. -/
theorem pyJoinAux_roundtrip (c : Char) (ls : List (List Char)) (hne : ls ≠ [])
    (hfree : ∀ l ∈ ls, c ∉ l) :
    pySplitAux c (pyJoinAux c ls) = ls := by
  induction ls with
  | nil => exact absurd rfl hne
  | cons x xs ih =>
      cases xs with
      | nil =>
          show pySplitAux c (pyJoinAux c [x]) = [x]
          rw [pyJoinAux]
          exact pySplitAux_of_not_mem (hfree x (by simp))
      | cons y ys =>
          rw [show pyJoinAux c (x :: y :: ys) = x ++ c :: pyJoinAux c (y :: ys) from rfl]
          rw [pySplitAux_sep_append _ (hfree x (by simp))]
          rw [ih (by simp) (fun l hl => hfree l (List.mem_cons_of_mem _ hl))]

/-- Rebuilding strings from their character lists is the identity. -/
theorem map_mk_data (xs : List String) : (xs.map String.data).map String.mk = xs := by
  induction xs with
  | nil => rfl
  | cons x rest ih => simp only [List.map_cons, ih]

/-- String-level round trip: `pySplit` after `pyJoin` is the identity on
non-empty lists of separator-free strings. -/
theorem pySplit_pyJoin (xs : List String) (hne : xs ≠ [])
    (hfree : ∀ x ∈ xs, ';' ∉ x.data) :
    pySplit (pyJoin ';' xs) ';' = xs := by
  unfold pySplit pyJoin
  rw [show (String.mk (pyJoinAux ';' (xs.map String.data))).data
        = pyJoinAux ';' (xs.map String.data) from rfl]
  rw [pyJoinAux_roundtrip ';' (xs.map String.data)
        (fun hmap => hne (by simpa using hmap))
        (fun l hl => by
          obtain ⟨x, hx, hxe⟩ := List.mem_map.mp hl
          exact hxe ▸ hfree x hx)]
  exact map_mk_data xs

/-- Appending a non-empty string changes a string. -/
theorem str_append_ne (a s : String) (h : s.length ≠ 0) : a ++ s ≠ a := by
  intro he
  have hl := congrArg String.length he
  rw [String.length_append] at hl
  omega

/-- Appending strings of different lengths yields different strings. -/
theorem str_append_ne_append (a s t : String) (h : s.length ≠ t.length) :
    a ++ s ≠ a ++ t := by
  intro he
  have hl := congrArg String.length he
  rw [String.length_append, String.length_append] at hl
  omega

/-- Looking up the name field of an annotation record. -/
theorem mkAnnRecord_get_names (p ty ns ss accs : String) :
    recGet (mkAnnRecord p ty ns ss accs) (p ++ ty) = .ok ns := by
  simp [recGet, mkAnnRecord, alookup]

/-- Looking up the term-source field of an annotation record. -/
theorem mkAnnRecord_get_sources (p ty ns ss accs : String) :
    recGet (mkAnnRecord p ty ns ss accs) (p ++ ty ++ " Term Source REF") = .ok ss := by
  have h₁ := (str_append_ne (p ++ ty) " Term Source REF" (by decide)).symm
  simp [recGet, mkAnnRecord, alookup, h₁]

/-- Looking up the term-accession field of an annotation record. -/
theorem mkAnnRecord_get_accs (p ty ns ss accs : String) :
    recGet (mkAnnRecord p ty ns ss accs) (p ++ ty ++ " Term Accession Number") = .ok accs := by
  have h₁ := (str_append_ne (p ++ ty) " Term Accession Number" (by decide)).symm
  have h₂ := str_append_ne_append (p ++ ty) " Term Source REF" " Term Accession Number" (by decide)
  simp [recGet, mkAnnRecord, alookup, h₁, h₂]

/-- If dropping `i` leaves a cons, index `i` is its head. -/
theorem getElem?_of_drop {α : Type} {l : List α} {i : Nat} {x : α} {xs : List α}
    (h : l.drop i = x :: xs) : l[i]? = some x := by
  induction l generalizing i with
  | nil => rw [List.drop_nil] at h; exact List.noConfusion h
  | cons y ys ih =>
      cases i with
      | zero =>
          rw [List.drop_zero] at h
          injection h with h₁ h₂
          rw [h₁]
          simp
      | succ i =>
          rw [List.drop_succ_cons] at h
          simp only [List.getElem?_cons_succ]
          exact ih h

/-- If dropping `i` leaves a cons, dropping `i + 1` leaves its tail. -/
theorem drop_succ_of_drop {α : Type} {l : List α} {i : Nat} {x : α} {xs : List α}
    (h : l.drop i = x :: xs) : l.drop (i + 1) = xs := by
  have h₂ : l.drop (i + 1) = (l.drop i).drop 1 := by
    rw [List.drop_drop, Nat.add_comm]
  rw [h₂, h]
  rfl

/-- The annotation loop succeeds when the source and accession token lists
are long enough, producing the position-wise zip of the remaining
tokens. -/
theorem annotsLoop_ok (ns : List String) :
    ∀ (ss accs tss taccs : List String) (i : Nat),
      ss.drop i = tss → accs.drop i = taccs →
      ns.length ≤ tss.length → ns.length ≤ taccs.length →
      _createOntologyAnnotsLoop ns ss accs i = .ok (zipAnn ns tss taccs) := by
  induction ns with
  | nil =>
      intro ss accs tss taccs i h₁ h₂ h₃ h₄
      cases tss <;> cases taccs <;> rfl
  | cons n ns ih =>
      intro ss accs tss taccs i h₁ h₂ h₃ h₄
      cases tss with
      | nil => simp at h₃
      | cons s tss' =>
          cases taccs with
          | nil => simp at h₄
          | cons a taccs' =>
              have hs := getElem?_of_drop h₁
              have ha := getElem?_of_drop h₂
              have hs' := drop_succ_of_drop h₁
              have ha' := drop_succ_of_drop h₂
              rw [_createOntologyAnnotsLoop]
              simp only [pyIndex, hs, ha]
              rw [ih ss accs tss' taccs' (i + 1) hs' ha'
                    (by simpa using h₃) (by simpa using h₄)]
              rfl

/-- The annotation loop raises `IndexError` when the name token list
reaches past the end of the source or accession token list. -/
theorem annotsLoop_err (ns : List String) :
    ∀ (ss accs : List String) (i : Nat), ns ≠ [] →
      (ss.length < i + ns.length ∨ accs.length < i + ns.length) →
      _createOntologyAnnotsLoop ns ss accs i = .error .indexError := by
  induction ns with
  | nil => intro ss accs i hne hlt; exact absurd rfl hne
  | cons n ns ih =>
      intro ss accs i hne hlt
      by_cases hs : ss.length ≤ i
      · have hnone : ss[i]? = none := List.getElem?_eq_none hs
        rw [_createOntologyAnnotsLoop]
        simp [pyIndex, hnone, Bind.bind, Except.bind]
      · push_neg at hs
        obtain ⟨s, hsome⟩ : ∃ v, ss[i]? = some v := ⟨_, List.getElem?_eq_getElem hs⟩
        by_cases ha : accs.length ≤ i
        · have hnone : accs[i]? = none := List.getElem?_eq_none ha
          rw [_createOntologyAnnotsLoop]
          simp [pyIndex, hsome, hnone, Bind.bind, Except.bind]
        · push_neg at ha
          obtain ⟨a, hasome⟩ : ∃ v, accs[i]? = some v := ⟨_, List.getElem?_eq_getElem ha⟩
          have hne' : ns ≠ [] := by
            intro h0
            subst h0
            simp only [List.length_cons, List.length_nil] at hlt
            rcases hlt with h | h <;> omega
          have hlt' : ss.length < (i + 1) + ns.length ∨ accs.length < (i + 1) + ns.length := by
            simp only [List.length_cons] at hlt
            rcases hlt with h | h
            · left; omega
            · right; omega
          rw [_createOntologyAnnotsLoop]
          simp [pyIndex, hsome, hasome, Bind.bind, Except.bind,
                ih ss accs (i + 1) hne' hlt']

/-- Splitting never yields the empty token list. -/
theorem pySplit_ne_nil (s : String) (c : Char) : pySplit s c ≠ [] := by
  unfold pySplit
  intro h
  exact pySplitAux_ne_nil c s.data (by simpa using h)

/-- Zipping the three component projections of a list of annotations
recovers the list. -/
theorem zipAnn_maps (ts : List OntologyAnnot) :
    zipAnn (ts.map OntologyAnnot.name) (ts.map OntologyAnnot.term_source)
      (ts.map OntologyAnnot.term_accession) = ts := by
  induction ts with
  | nil => rfl
  | cons t rest ih => simp only [List.map_cons, zipAnn, ih]

/-- The zip's length is the least of the three token counts. -/
theorem zipAnn_length (ns ss accs : List String) :
    (zipAnn ns ss accs).length = min ns.length (min ss.length accs.length) := by
  induction ns generalizing ss accs with
  | nil => cases ss <;> cases accs <;> simp [zipAnn]
  | cons n ns ih =>
      cases ss with
      | nil => simp [zipAnn]
      | cons s ss' =>
          cases accs with
          | nil => simp [zipAnn]
          | cons a accs' =>
              simp only [zipAnn, List.length_cons, ih]
              omega

/-- C2 (amended): for every non-empty list of annotations whose components
contain no separator, joining the three component lists with `;` into an
annotation record and running the semicolon-splitting assembler on it
reproduces exactly the original list, in order. -/
theorem annots_roundtrip (inv_or_study type_ : String) (ts : List OntologyAnnot)
    (hne : ts ≠ [])
    (hfree : ∀ t ∈ ts, ';' ∉ t.name.data ∧ ';' ∉ t.term_source.data ∧ ';' ∉ t.term_accession.data) :
    _createOntologyAnnotsFromStringList
        (mkAnnRecord inv_or_study type_
          (pyJoin ';' (ts.map OntologyAnnot.name))
          (pyJoin ';' (ts.map OntologyAnnot.term_source))
          (pyJoin ';' (ts.map OntologyAnnot.term_accession)))
        inv_or_study type_
      = .ok ts := by
  have hmapne : ∀ f : OntologyAnnot → String, ts.map f ≠ [] := by
    intro f h
    exact hne (by simpa using h)
  rw [_createOntologyAnnotsFromStringList,
      mkAnnRecord_get_names, mkAnnRecord_get_sources, mkAnnRecord_get_accs]
  simp only [Bind.bind, Except.bind]
  rw [pySplit_pyJoin _ (hmapne _)
        (fun x hx => by
          obtain ⟨t, ht, hte⟩ := List.mem_map.mp hx
          exact hte ▸ (hfree t ht).1),
      pySplit_pyJoin _ (hmapne _)
        (fun x hx => by
          obtain ⟨t, ht, hte⟩ := List.mem_map.mp hx
          exact hte ▸ (hfree t ht).2.1),
      pySplit_pyJoin _ (hmapne _)
        (fun x hx => by
          obtain ⟨t, ht, hte⟩ := List.mem_map.mp hx
          exact hte ▸ (hfree t ht).2.2)]
  rw [annotsLoop_ok _ _ _ _ _ 0 (List.drop_zero _) (List.drop_zero _)
        (by simp) (by simp)]
  rw [zipAnn_maps]

/-- Witness for C2 at a two-element annotation list. -/
theorem annots_roundtrip_witness :
    (([⟨"a", "s", "u"⟩, ⟨"b", "t", "v"⟩] : List OntologyAnnot) ≠ [])
    ∧ (∀ t ∈ ([⟨"a", "s", "u"⟩, ⟨"b", "t", "v"⟩] : List OntologyAnnot),
        ';' ∉ t.name.data ∧ ';' ∉ t.term_source.data ∧ ';' ∉ t.term_accession.data)
    ∧ _createOntologyAnnotsFromStringList
        (mkAnnRecord "Study" " Protocol Parameters Name"
          (pyJoin ';' (([⟨"a", "s", "u"⟩, ⟨"b", "t", "v"⟩] : List OntologyAnnot).map OntologyAnnot.name))
          (pyJoin ';' (([⟨"a", "s", "u"⟩, ⟨"b", "t", "v"⟩] : List OntologyAnnot).map OntologyAnnot.term_source))
          (pyJoin ';' (([⟨"a", "s", "u"⟩, ⟨"b", "t", "v"⟩] : List OntologyAnnot).map OntologyAnnot.term_accession)))
        "Study" " Protocol Parameters Name"
      = .ok [⟨"a", "s", "u"⟩, ⟨"b", "t", "v"⟩] :=
  ⟨by decide, by decide,
   annots_roundtrip "Study" " Protocol Parameters Name"
     [⟨"a", "s", "u"⟩, ⟨"b", "t", "v"⟩] (by decide) (by decide)⟩

/-- Counterexample for C2 as stated, quantified over every list of
triples: the empty list joins to three empty strings but the assembler
returns one all-empty annotation rather than the empty list; and a
component containing the separator (name `"a;b"`) makes the assembler
raise `IndexError` rather than reproduce the one-element list. -/
theorem annots_roundtrip_cex :
    _createOntologyAnnotsFromStringList
        (mkAnnRecord "Study" " Protocol Parameters Name"
          (pyJoin ';' (([] : List OntologyAnnot).map OntologyAnnot.name))
          (pyJoin ';' (([] : List OntologyAnnot).map OntologyAnnot.term_source))
          (pyJoin ';' (([] : List OntologyAnnot).map OntologyAnnot.term_accession)))
        "Study" " Protocol Parameters Name"
      = .ok [⟨"", "", ""⟩]
    ∧ _createOntologyAnnotsFromStringList
        (mkAnnRecord "Study" " Protocol Parameters Name"
          (pyJoin ';' ["a;b"]) (pyJoin ';' ["s"]) (pyJoin ';' ["u"]))
        "Study" " Protocol Parameters Name"
      = .error .indexError :=
  ⟨rfl, rfl⟩

/-- C3 (amended): the semicolon-splitting assembler raises an
index-out-of-range fault exactly when the name field tokenizes to more
tokens than the term-source field or more than the term-accession field;
otherwise it succeeds with one annotation per name token (surplus source
or accession tokens are silently ignored) — in particular equal token
counts always succeed, but equality is not necessary. -/
theorem annots_arity (inv_or_study type_ ns ss accs : String) :
    (_createOntologyAnnotsFromStringList (mkAnnRecord inv_or_study type_ ns ss accs)
        inv_or_study type_
      = if (pySplit ss ';').length < (pySplit ns ';').length
           ∨ (pySplit accs ';').length < (pySplit ns ';').length
        then .error .indexError
        else .ok (zipAnn (pySplit ns ';') (pySplit ss ';') (pySplit accs ';')))
    ∧ ((pySplit ns ';').length ≤ (pySplit ss ';').length →
       (pySplit ns ';').length ≤ (pySplit accs ';').length →
       (zipAnn (pySplit ns ';') (pySplit ss ';') (pySplit accs ';')).length
         = (pySplit ns ';').length) := by
  constructor
  · rw [_createOntologyAnnotsFromStringList,
        mkAnnRecord_get_names, mkAnnRecord_get_sources, mkAnnRecord_get_accs]
    simp only [Bind.bind, Except.bind]
    by_cases hcond : (pySplit ss ';').length < (pySplit ns ';').length
        ∨ (pySplit accs ';').length < (pySplit ns ';').length
    · rw [if_pos hcond]
      exact annotsLoop_err _ _ _ 0 (pySplit_ne_nil ns ';') (by simpa using hcond)
    · rw [if_neg hcond]
      push_neg at hcond
      exact annotsLoop_ok _ _ _ _ _ 0 (List.drop_zero _) (List.drop_zero _)
        hcond.1 hcond.2
  · intro h₁ h₂
    rw [zipAnn_length]
    omega

/-- Witness for C3's success side at fields with token counts 1, 2, 2. -/
theorem annots_arity_witness :
    ((pySplit "a" ';').length ≤ (pySplit "s;t" ';').length)
    ∧ ((pySplit "a" ';').length ≤ (pySplit "u;v" ';').length)
    ∧ (zipAnn (pySplit "a" ';') (pySplit "s;t" ';') (pySplit "u;v" ';')).length
        = (pySplit "a" ';').length :=
  ⟨by decide, by decide,
   (annots_arity "Study" " Protocol Parameters Name" "a" "s;t" "u;v").2
     (by decide) (by decide)⟩

/-- Counterexample for C3 as stated: fields tokenizing to the pairwise
different counts 1, 2 and 3 do not fault — the assembler succeeds with one
annotation per name token. -/
theorem annots_arity_cex :
    (pySplit "a" ';').length = 1
    ∧ (pySplit "x;y" ';').length = 2
    ∧ (pySplit "p;q;r" ';').length = 3
    ∧ _createOntologyAnnotsFromStringList
        (mkAnnRecord "Study" " Protocol Parameters Name" "a" "x;y" "p;q;r")
        "Study" " Protocol Parameters Name"
      = .ok [⟨"a", "x", "p"⟩] :=
  ⟨rfl, rfl, rfl, rfl⟩

/-- Generic key-membership description for the three node-dictionary
builders: a key is in the built dictionary exactly when some node under
that key satisfies the builder's type-tag condition. -/
theorem dict_mem_generic {β : Type} (build : List (String × RawNode) → List (String × β))
    (cond : RawNode → Prop)
    (hnil : build [] = [])
    (hpos : ∀ k n rest, cond n → ∃ e, build ((k, n) :: rest) = (k, e) :: build rest)
    (hneg : ∀ k n rest, ¬ cond n → build ((k, n) :: rest) = build rest) :
    ∀ (nodes : List (String × RawNode)) (k : String),
      k ∈ dictKeys (build nodes) ↔ ∃ n, (k, n) ∈ nodes ∧ cond n := by
  intro nodes
  induction nodes with
  | nil => intro k; rw [hnil]; simp [dictKeys]
  | cons p rest ih =>
      intro k
      obtain ⟨k₀, n₀⟩ := p
      by_cases h : cond n₀
      · obtain ⟨e, he⟩ := hpos k₀ n₀ rest h
        rw [he]
        simp only [dictKeys, List.map_cons, List.mem_cons]
        constructor
        · rintro (rfl | hk)
          · exact ⟨n₀, Or.inl rfl, h⟩
          · obtain ⟨n, hn, hc⟩ := (ih k).mp hk
            exact ⟨n, Or.inr hn, hc⟩
        · rintro ⟨n, heq | hn', hc⟩
          · left
            exact congrArg Prod.fst heq
          · right
            exact (ih k).mpr ⟨n, hn', hc⟩
      · rw [hneg k₀ n₀ rest h, ih k]
        constructor
        · rintro ⟨n, hn, hc⟩
          exact ⟨n, List.mem_cons_of_mem _ hn, hc⟩
        · rintro ⟨n, hn, hc⟩
          rcases List.mem_cons.mp hn with heq | hn'
          · have hnn : n = n₀ := congrArg Prod.snd heq
            exact absurd (hnn ▸ hc) h
          · exact ⟨n, hn', hc⟩

/-- Source-dictionary keys are the names of the nodes tagged
`"Source Name"`. -/
theorem mem_keys_source (nodes : List (String × RawNode)) (k : String) :
    k ∈ dictKeys (_createSourcesDictionary nodes)
      ↔ ∃ n, (k, n) ∈ nodes ∧ n.ntype = "Source Name" :=
  dict_mem_generic _createSourcesDictionary (fun n => n.ntype = "Source Name") rfl
    (fun k n rest hc => ⟨⟨k, _createCharacteristicList k n⟩, by
      simp [_createSourcesDictionary, hc]⟩)
    (fun k n rest hc => by simp [_createSourcesDictionary, hc]) nodes k

/-- Sample-dictionary keys are the names of the nodes tagged
`"Sample Name"`. -/
theorem mem_keys_sample (nodes : List (String × RawNode)) (k : String) :
    k ∈ dictKeys (_createSampleDictionary nodes)
      ↔ ∃ n, (k, n) ∈ nodes ∧ n.ntype = "Sample Name" :=
  dict_mem_generic _createSampleDictionary (fun n => n.ntype = "Sample Name") rfl
    (fun k n rest hc => ⟨⟨k, [], _createCharacteristicList k n⟩, by
      simp [_createSampleDictionary, hc]⟩)
    (fun k n rest hc => by simp [_createSampleDictionary, hc]) nodes k

/-- Data-dictionary keys are the names of the nodes whose type tag ends
with `"Data File"`. -/
theorem mem_keys_data (nodes : List (String × RawNode)) (k : String) :
    k ∈ dictKeys (_createDataFiles nodes)
      ↔ ∃ n, (k, n) ∈ nodes ∧ pyEndsWith n.ntype "Data File" = true :=
  dict_mem_generic _createDataFiles (fun n => pyEndsWith n.ntype "Data File" = true) rfl
    (fun k n rest hc => ⟨⟨n.name, n.ntype⟩, by
      simp [_createDataFiles, hc]⟩)
    (fun k n rest hc => by simp [_createDataFiles, hc]) nodes k

/-- In an association list with duplicate-free keys, a key determines its
node. -/
theorem nodup_assoc_eq {α : Type} {l : List (String × α)} (h : (l.map Prod.fst).Nodup)
    {k : String} {a b : α} (ha : (k, a) ∈ l) (hb : (k, b) ∈ l) : a = b := by
  induction l with
  | nil => cases ha
  | cons p rest ih =>
      rw [List.map_cons, List.nodup_cons] at h
      rcases List.mem_cons.mp ha with hea | ha'
      · rcases List.mem_cons.mp hb with heb | hb'
        · exact congrArg Prod.snd (hea.trans heb.symm)
        · exfalso
          apply h.1
          have hk : k ∈ List.map Prod.fst rest := List.mem_map_of_mem Prod.fst hb'
          rw [← hea]
          exact hk
      · rcases List.mem_cons.mp hb with heb | hb'
        · exfalso
          apply h.1
          have hk : k ∈ List.map Prod.fst rest := List.mem_map_of_mem Prod.fst ha'
          rw [← heb]
          exact hk
        · exact ih h.2 ha' hb'

/-- C9: on a node graph with duplicate-free node names, the three node
dictionaries have pairwise disjoint key sets, and a node whose type tag is
neither `"Source Name"` nor `"Sample Name"` and does not end with
`"Data File"` appears in none of them. -/
theorem node_dicts_partition (nodes : List (String × RawNode))
    (hnd : (nodes.map Prod.fst).Nodup) :
    List.Disjoint (dictKeys (_createSourcesDictionary nodes))
        (dictKeys (_createSampleDictionary nodes))
    ∧ List.Disjoint (dictKeys (_createSourcesDictionary nodes))
        (dictKeys (_createDataFiles nodes))
    ∧ List.Disjoint (dictKeys (_createSampleDictionary nodes))
        (dictKeys (_createDataFiles nodes))
    ∧ ∀ k n, (k, n) ∈ nodes → n.ntype ≠ "Source Name" → n.ntype ≠ "Sample Name" →
        pyEndsWith n.ntype "Data File" = false →
        k ∉ dictKeys (_createSourcesDictionary nodes)
        ∧ k ∉ dictKeys (_createSampleDictionary nodes)
        ∧ k ∉ dictKeys (_createDataFiles nodes) := by
  refine ⟨?_, ?_, ?_, ?_⟩
  · intro k h₁ h₂
    obtain ⟨n₁, hn₁, hc₁⟩ := (mem_keys_source nodes k).mp h₁
    obtain ⟨n₂, hn₂, hc₂⟩ := (mem_keys_sample nodes k).mp h₂
    rw [nodup_assoc_eq hnd hn₁ hn₂] at hc₁
    rw [hc₁] at hc₂
    exact absurd hc₂ (by decide)
  · intro k h₁ h₂
    obtain ⟨n₁, hn₁, hc₁⟩ := (mem_keys_source nodes k).mp h₁
    obtain ⟨n₂, hn₂, hc₂⟩ := (mem_keys_data nodes k).mp h₂
    rw [nodup_assoc_eq hnd hn₁ hn₂] at hc₁
    rw [hc₁] at hc₂
    exact absurd hc₂ (by decide)
  · intro k h₁ h₂
    obtain ⟨n₁, hn₁, hc₁⟩ := (mem_keys_sample nodes k).mp h₁
    obtain ⟨n₂, hn₂, hc₂⟩ := (mem_keys_data nodes k).mp h₂
    rw [nodup_assoc_eq hnd hn₁ hn₂] at hc₁
    rw [hc₁] at hc₂
    exact absurd hc₂ (by decide)
  · intro k n hn hsrc hsmp hdata
    refine ⟨?_, ?_, ?_⟩
    · intro hk
      obtain ⟨n₁, hn₁, hc₁⟩ := (mem_keys_source nodes k).mp hk
      rw [← nodup_assoc_eq hnd hn hn₁] at hc₁
      exact hsrc hc₁
    · intro hk
      obtain ⟨n₁, hn₁, hc₁⟩ := (mem_keys_sample nodes k).mp hk
      rw [← nodup_assoc_eq hnd hn hn₁] at hc₁
      exact hsmp hc₁
    · intro hk
      obtain ⟨n₁, hn₁, hc₁⟩ := (mem_keys_data nodes k).mp hk
      rw [← nodup_assoc_eq hnd hn hn₁] at hc₁
      rw [hdata] at hc₁
      exact Bool.noConfusion hc₁

/-- Witness for C9 at a four-node graph (one node of each kind plus one
unclassified `"Protocol REF"` node). -/
theorem node_dicts_partition_witness :
    (nodesEx.map Prod.fst).Nodup
    ∧ (List.Disjoint (dictKeys (_createSourcesDictionary nodesEx))
          (dictKeys (_createSampleDictionary nodesEx))
       ∧ List.Disjoint (dictKeys (_createSourcesDictionary nodesEx))
          (dictKeys (_createDataFiles nodesEx))
       ∧ List.Disjoint (dictKeys (_createSampleDictionary nodesEx))
          (dictKeys (_createDataFiles nodesEx))
       ∧ ∀ k n, (k, n) ∈ nodesEx → n.ntype ≠ "Source Name" → n.ntype ≠ "Sample Name" →
          pyEndsWith n.ntype "Data File" = false →
          k ∉ dictKeys (_createSourcesDictionary nodesEx)
          ∧ k ∉ dictKeys (_createSampleDictionary nodesEx)
          ∧ k ∉ dictKeys (_createDataFiles nodesEx)) :=
  ⟨by decide, node_dicts_partition nodesEx (by decide)⟩

end Isatab
